import Mathlib

/-!
Verification of the GitTrack Discord bot's webhook ingestion and routing core.

This development shallowly embeds the relevant JavaScript source files as Lean
definitions and proves the specified properties about them:

* `src/functions/branchMatcher.js` — branch pattern matching (strings are
  modelled as `List Char`; `String.prototype` operations become list
  operations).
* `src/functions/eventRouting.js` — per-event channel/config resolution with
  auto-provisioning (the Prisma store becomes an explicit list of rows and
  explicit state passing).
* `src/functions/limitChecker.js` — repository and channel resource limits
  (`Infinity` becomes `Option Nat` with `none` for unlimited).
* `src/handlers/webhookHandler.js` — the POST /github-webhook pipeline, the
  per-request response guard, the delivery handlers, and the advisory channel
  limit check (HMAC computation and the Discord client are external and are
  passed in as parameters; thrown exceptions become explicit outcomes).

JavaScript truthiness on nullable strings is modelled with `Option String`
(`none` for null/undefined) where the source performs `||` fallbacks: both
`null` and the empty string are falsy, and `none` is distinguished from
`some ""` where `===` comparisons require it.
-/

namespace GitTrack

/-! ## Branch Pattern Matcher (src/functions/branchMatcher.js)

Branch names and patterns are `List Char` (the underlying representation of
JavaScript strings for the operations used here: `===`, `endsWith('/*')`,
`slice(0, -2)`, `startsWith(prefix + '/')`, `includes('*')`, and the
character-class regular expression test). -/

/-- Character class of the regex used by the validator:
`/^[a-zA-Z0-9\-_\/.]+$/` admits ASCII letters, digits, hyphen, underscore,
slash and dot. -/
def allowedChar (c : Char) : Bool :=
  c.isAlpha || c.isDigit || c == '-' || c == '_' || c == '/' || c == '.'

/-- Test of the regex `/^[a-zA-Z0-9\-_\/.]+$/`: at least one character, all in
the allowed class. -/
def allowedCharsTest (s : List Char) : Bool :=
  !s.isEmpty && s.all allowedChar

/-- The test `pattern.endsWith('/*')`. -/
def endsWithSlashStar (p : List Char) : Bool :=
  match p.reverse with
  | '*' :: '/' :: _ => true
  | _ => false

/-- The expression `pattern.slice(0, -2)`: drop the final two characters. -/
def sliceDropTwo (p : List Char) : List Char :=
  (p.reverse.drop 2).reverse

/-- Embedding of `matchesBranchPattern(branchName, pattern)`:
wildcard `*` matches everything; otherwise exact equality; otherwise a
pattern ending in `/*` matches branch names starting with the prefix plus
`/`; anything else does not match. -/
def matchesBranchPattern (branchName pattern : List Char) : Bool :=
  if pattern = ['*'] then
    true
  else if pattern = branchName then
    true
  else if endsWithSlashStar pattern then
    List.isPrefixOf (sliceDropTwo pattern ++ ['/']) branchName
  else
    false

/-- A tracked branch row as used by `findMatchingBranches`: only the
`branchName` (pattern) field and the channel override are relevant. -/
structure TrackedBranch where
  branchName : List Char
  channelId : Option String
deriving DecidableEq

/-- Embedding of `findMatchingBranches(trackedBranches, branchName)`. -/
def findMatchingBranches (trackedBranches : List TrackedBranch)
    (branchName : List Char) : List TrackedBranch :=
  trackedBranches.filter (fun trackedBranch =>
    matchesBranchPattern branchName trackedBranch.branchName)

/-- Embedding of `isValidBranchPattern(pattern)`: `*` is valid; a pattern with
no wildcard must pass the character-class regex; a pattern ending in `/*`
must have a non-empty, wildcard-free prefix passing the regex; everything
else is invalid. -/
def isValidBranchPattern (pattern : List Char) : Bool :=
  if pattern = ['*'] then
    true
  else if !pattern.contains '*' then
    allowedCharsTest pattern
  else if endsWithSlashStar pattern then
    let pre := sliceDropTwo pattern
    decide (pre.length > 0) && !pre.contains '*' && allowedCharsTest pre
  else
    false

end GitTrack

namespace GitTrack

/-! Basic facts about the matcher used by the claim proofs. -/

theorem endsWithSlashStar_eq (p : List Char) :
    endsWithSlashStar p = true ↔ p = sliceDropTwo p ++ ['/', '*'] := by
  constructor
  · intro h
    unfold endsWithSlashStar at h
    match hrev : p.reverse with
    | [] => rw [hrev] at h; simp at h
    | [c] => rw [hrev] at h; simp at h
    | c₁ :: c₂ :: rest =>
      rw [hrev] at h
      by_cases h1 : c₁ = '*'
      · by_cases h2 : c₂ = '/'
        · subst h1; subst h2
          have hp : p = p.reverse.reverse := (List.reverse_reverse p).symm
          rw [hrev] at hp
          unfold sliceDropTwo
          rw [hrev]
          simp at hp ⊢
          exact hp
        · simp [h1, h2] at h
      · simp [h1] at h
  · intro h
    unfold endsWithSlashStar
    conv => lhs; rw [h]
    simp

theorem mem_of_isPrefixOf {l₁ l₂ : List Char} {c : Char}
    (h : List.isPrefixOf l₁ l₂ = true) (hc : c ∈ l₁) : c ∈ l₂ := by
  have hpre : l₁ <+: l₂ := by
    exact (List.isPrefixOf_iff_prefix).mp h
  exact hpre.subset hc

end GitTrack

namespace GitTrack

theorem star_not_mem {B : List Char} (hB : B.contains '*' = false) : '*' ∉ B := by
  intro hmem
  rw [show B.contains '*' = B.elem '*' from rfl] at hB
  rw [(List.elem_iff).mpr hmem] at hB
  exact Bool.noConfusion hB

theorem contains_star_of_endsWith {P : List Char} (h : endsWithSlashStar P = true) :
    P.contains '*' = true := by
  rw [(endsWithSlashStar_eq P).mp h]
  exact (List.elem_iff).mpr (by simp)

/-- C3: the repository's own test suite (`tests/branchMatcher.test.js`)
asserts negation-pattern semantics — `matchesBranchPattern('develop','!main')`
and `matchesBranchPattern('hotfix/v1.0.1','!release/*')` must be `true`,
and `isValidBranchPattern` must accept `'!main'` and `'!release/*'` — but the
shipped `branchMatcher.js` has no `!` handling at all: the embedded code
returns `false` on every one of those inputs (while agreeing with the claim
on `'!*'`, `'feature/*/docs'` and `'release/*'`). This theorem evaluates the
embedded code at the failing inputs. -/
theorem branchMatcher_negation_not_implemented :
    matchesBranchPattern "develop".toList "!main".toList = false ∧
    matchesBranchPattern "hotfix/v1.0.1".toList "!release/*".toList = false ∧
    isValidBranchPattern "!main".toList = false ∧
    isValidBranchPattern "!release/*".toList = false ∧
    isValidBranchPattern "!*".toList = false ∧
    isValidBranchPattern "feature/*/docs".toList = false ∧
    isValidBranchPattern "release/*".toList = true := by
  refine ⟨by decide, by decide, by decide, by decide, by decide, by decide, by decide⟩

/-- C4: for every branch name `B` (branch names never contain `*`, which git
forbids in ref names — hypothesis `hB`): the wildcard pattern `*` matches
`B`; a wildcard-free pattern matches `B` exactly when it equals `B`; a
pattern ending in `/*` matches exactly when `B` starts with the pattern's
prefix followed by `/`; any other shape containing a wildcard (mid-pattern
`*`, `*` not in a trailing `/*`, wildcard inside the prefix) matches no
branch name; and consequently `findMatchingBranches` never returns an entry
whose pattern has such a shape. -/
theorem matchesBranchPattern_shapes (B P : List Char) (hB : B.contains '*' = false) :
    matchesBranchPattern B ['*'] = true ∧
    (P.contains '*' = false → (matchesBranchPattern B P = true ↔ P = B)) ∧
    (endsWithSlashStar P = true →
      matchesBranchPattern B P = List.isPrefixOf (sliceDropTwo P ++ ['/']) B) ∧
    (P.contains '*' = true → P ≠ ['*'] →
      (endsWithSlashStar P = false ∨ (sliceDropTwo P).contains '*' = true) →
      matchesBranchPattern B P = false) ∧
    (∀ tbs : List TrackedBranch, ∀ tb ∈ findMatchingBranches tbs B,
      tb.branchName.contains '*' = true → tb.branchName ≠ ['*'] →
      endsWithSlashStar tb.branchName = true ∧
      (sliceDropTwo tb.branchName).contains '*' = false) := by
  have hstarB : '*' ∉ B := star_not_mem hB
  have main4 : ∀ Q : List Char, Q.contains '*' = true → Q ≠ ['*'] →
      (endsWithSlashStar Q = false ∨ (sliceDropTwo Q).contains '*' = true) →
      matchesBranchPattern B Q = false := by
    intro Q hQstar hQne hshape
    unfold matchesBranchPattern
    rw [if_neg hQne]
    have hQB : Q ≠ B := by
      intro hEq
      subst hEq
      rw [hQstar] at hB
      exact Bool.noConfusion hB
    rw [if_neg hQB]
    rcases hshape with hend | hmid
    · rw [if_neg (by simp [hend])]
    · by_cases hend : endsWithSlashStar Q = true
      · rw [if_pos hend]
        by_contra hmat
        have hmat' : List.isPrefixOf (sliceDropTwo Q ++ ['/']) B = true := by
          revert hmat
          cases List.isPrefixOf (sliceDropTwo Q ++ ['/']) B <;> simp
        have hstarQ : '*' ∈ sliceDropTwo Q ++ ['/'] := by
          have := (List.elem_iff).mp hmid
          simp [this]
        exact hstarB (mem_of_isPrefixOf hmat' hstarQ)
      · rw [if_neg hend]
  refine ⟨?_, ?_, ?_, main4 P, ?_⟩
  · unfold matchesBranchPattern
    rw [if_pos rfl]
  · intro hPstar
    have hPne : P ≠ ['*'] := by
      intro hEq
      subst hEq
      simp [List.contains] at hPstar
    unfold matchesBranchPattern
    rw [if_neg hPne]
    by_cases hPB : P = B
    · rw [if_pos hPB]
      simp [hPB]
    · rw [if_neg hPB]
      have hend : ¬ endsWithSlashStar P = true := by
        intro h
        rw [contains_star_of_endsWith h] at hPstar
        exact Bool.noConfusion hPstar
      rw [if_neg hend]
      simp [hPB]
  · intro hend
    have hPne : P ≠ ['*'] := by
      intro hEq
      rw [hEq] at hend
      simp [endsWithSlashStar] at hend
    have hPB : P ≠ B := by
      intro hEq
      subst hEq
      rw [contains_star_of_endsWith hend] at hB
      exact Bool.noConfusion hB
    unfold matchesBranchPattern
    rw [if_neg hPne, if_neg hPB, if_pos hend]
  · intro tbs tb htb hstar hne
    have hmatch : matchesBranchPattern B tb.branchName = true := by
      have := List.mem_filter.mp htb
      exact this.2
    by_contra hcon
    rw [not_and_or] at hcon
    have hshape : endsWithSlashStar tb.branchName = false ∨
        (sliceDropTwo tb.branchName).contains '*' = true := by
      rcases hcon with h | h
      · left
        revert h
        cases endsWithSlashStar tb.branchName <;> simp
      · right
        revert h
        cases (sliceDropTwo tb.branchName).contains '*' <;> simp
    rw [main4 tb.branchName hstar hne hshape] at hmatch
    exact Bool.noConfusion hmatch

/-- Witness for C4 at concrete inputs: the branch `feature/new-ui` contains no
wildcard, and the stored-but-ambiguous pattern `*fix*` does not match it. -/
theorem matchesBranchPattern_shapes_witness :
    matchesBranchPattern "feature/new-ui".toList "*fix*".toList = false :=
  ((matchesBranchPattern_shapes "feature/new-ui".toList "*fix*".toList
      (by decide)).2.2.2.1) (by decide) (by decide) (Or.inl (by decide))

end GitTrack

namespace GitTrack

/-! ## JavaScript truthiness helpers

Nullable strings are `Option String`; `null`/`undefined` are `none` and the
empty string is also falsy. -/

/-- Truthiness of a nullable string: `null`, `undefined` and `""` are falsy. -/
def truthyS : Option String → Bool
  | none => false
  | some s => s != ""

/-- The JavaScript expression `x || 'pending'` on a nullable string. -/
def orPending : Option String → String
  | none => "pending"
  | some s => if s = "" then "pending" else s

/-- The JavaScript fallback chain `a || b || 'pending'` where `a` is a
(non-null) string and `b` is nullable. -/
def strFallback (a : String) (b : Option String) : String :=
  if a = "" then orPending b else a

/-- The JavaScript fallback `a || b` on two nullable strings. -/
def jsOrS (a b : Option String) : Option String :=
  if truthyS a then a else b

/-- Strict equality `s === o` between a string and a nullable string:
`s === null` and `s === undefined` are false. -/
def jsEqSO (s : String) (o : Option String) : Bool :=
  match o with
  | some t => s == t
  | none => false

/-! ## Event Routing Resolver (src/functions/eventRouting.js)

The Prisma store of `RepositoryEventChannel` rows is an explicit list;
`findFirst` is `List.find?` and `create` appends a row. The JSON `config`
blob is a structure whose fields may be absent; `actionsEnabled` maps are
association lists (JavaScript objects keyed by action name). -/

/-- The `config` JSON blob of a `RepositoryEventChannel` row: an open object
that may or may not carry `actionsEnabled` and `explicitChannel`. -/
structure EventChannelConfig where
  actionsEnabled : Option (List (String × Bool))
  explicitChannel : Option Bool
deriving DecidableEq

/-- A `RepositoryEventChannel` row; `config` itself may be null. -/
structure RepositoryEventChannel where
  repositoryId : String
  eventType : String
  channelId : String
  config : Option EventChannelConfig
deriving DecidableEq

/-- Embedding of `getDefaultActionsForEvent(eventType)`: the static
per-event-type default action table; unknown events get an empty map. -/
def getDefaultActionsForEvent (eventType : String) : List (String × Bool) :=
  match eventType with
  | "issues" =>
      [("opened", true), ("closed", true), ("reopened", true), ("edited", true),
       ("labeled", true), ("assigned", true), ("comments", false)]
  | "pull_request" =>
      [("opened", true), ("closed", true), ("reopened", true), ("comments", false)]
  | "release" => [("published", true)]
  | "star" => [("created", true), ("deleted", true)]
  | "fork" => [("created", true)]
  | "create" => [("created", true)]
  | "delete" => [("deleted", true)]
  | "milestone" => [("created", true), ("opened", true), ("closed", true)]
  | "ping" => [("ping", true)]
  | "workflow_run" => [("completed", true), ("requested", false)]
  | "workflow_job" =>
      [("queued", false), ("in_progress", false), ("completed", true), ("waiting", false)]
  | "check_run" =>
      [("created", false), ("requested", false), ("rerequested", false), ("completed", true)]
  | "check_suite" => [("requested", false), ("rerequested", false), ("completed", true)]
  | _ => []

/-- The object spread `{ ...defaults, ...existing }` on action maps: keys of
`defaults` first (with the value from `existing` when present), then the
keys only `existing` has; values from `existing` win. -/
def mergeActions (defaults existing : List (String × Bool)) : List (String × Bool) :=
  (defaults.map (fun kv =>
      match existing.lookup kv.1 with
      | some v => (kv.1, v)
      | none => kv))
    ++ existing.filter (fun kv => (defaults.lookup kv.1).isNone)

/-- The `findFirst` predicate `{ where: { repositoryId, eventType } }`. -/
def eventChannelPred (repositoryId eventType : String)
    (m : RepositoryEventChannel) : Bool :=
  m.repositoryId == repositoryId && m.eventType == eventType

/-- The value returned by `getEventRouting` on its success path. -/
structure RoutingResult where
  channelId : String
  config : EventChannelConfig
deriving DecidableEq

/-- Embedding of `getEventRouting(prisma, repositoryId, eventType,
fallbackChannelId)` on the success path (the store does not throw; the
`catch` fallback is not modelled): look up the first matching mapping,
auto-create a `'default'`-sentinel mapping with default actions when none
exists, merge stored actions over the defaults, and resolve the effective
channel. Returns the updated store together with the result. -/
def getEventRouting (store : List RepositoryEventChannel)
    (repositoryId eventType : String) (fallbackChannelId : Option String) :
    List RepositoryEventChannel × RoutingResult :=
  let defaultActions := getDefaultActionsForEvent eventType
  let res := match store.find? (eventChannelPred repositoryId eventType) with
    | some m => (store, m)
    | none =>
      let created : RepositoryEventChannel :=
        { repositoryId := repositoryId, eventType := eventType,
          channelId := "default",
          config := some { actionsEnabled := some defaultActions,
                           explicitChannel := some false } }
      (store ++ [created], created)
  let mapping := res.2
  let existingActions := match mapping.config with
    | some cfg => cfg.actionsEnabled.getD []
    | none => []
  let mergedActions := mergeActions defaultActions existingActions
  let mergedConfig : EventChannelConfig :=
    { actionsEnabled := some mergedActions,
      explicitChannel := match mapping.config with
        | some cfg => cfg.explicitChannel
        | none => none }
  let explicit : Bool := match mapping.config with
    | some cfg => cfg.explicitChannel == some true
    | none => false
  let effectiveChannelId :=
    if mapping.channelId == "default" ||
        (!explicit && jsEqSO mapping.channelId fallbackChannelId) then
      orPending fallbackChannelId
    else
      strFallback mapping.channelId fallbackChannelId
  (res.1, { channelId := effectiveChannelId, config := mergedConfig })

end GitTrack

namespace GitTrack

theorem lookup_append (l₁ l₂ : List (String × Bool)) (k : String) :
    (l₁ ++ l₂).lookup k = (l₁.lookup k).or (l₂.lookup k) := by
  induction l₁ with
  | nil => simp [List.lookup]
  | cons hd tl ih =>
    cases hd with
    | mk a b =>
      by_cases hka : (k == a) = true
      · simp [List.lookup, hka]
      · simp only [Bool.not_eq_true] at hka
        simp [List.lookup, hka, ih]

theorem lookup_mapDefaults (d e : List (String × Bool)) (k : String) :
    (d.map (fun kv =>
        match e.lookup kv.1 with
        | some v => (kv.1, v)
        | none => kv)).lookup k
      = match d.lookup k with
        | some dv => some ((e.lookup k).getD dv)
        | none => none := by
  induction d with
  | nil => simp [List.lookup]
  | cons hd tl ih =>
    cases hd with
    | mk a b =>
      by_cases hka : (k == a) = true
      · have hk : k = a := by simpa using hka
        subst hk
        cases hv : e.lookup k with
        | none => simp [List.lookup, hv]
        | some v => simp [List.lookup, hv]
      · simp only [Bool.not_eq_true] at hka
        cases hv : e.lookup a with
        | none => simp [List.lookup, hka, hv, ih]
        | some v => simp [List.lookup, hka, hv, ih]

theorem lookup_filterKeep (d e : List (String × Bool)) (k : String)
    (hd : d.lookup k = none) :
    (e.filter (fun kv => (d.lookup kv.1).isNone)).lookup k = e.lookup k := by
  induction e with
  | nil => simp
  | cons hd' tl ih =>
    cases hd' with
    | mk a b =>
      by_cases hka : (k == a) = true
      · have hk : k = a := by simpa using hka
        subst hk
        simp [List.filter, List.lookup, hd]
      · simp only [Bool.not_eq_true] at hka
        cases hp : (d.lookup a).isNone with
        | true => simp [List.filter, List.lookup, hka, hp, ih]
        | false => simp [List.filter, List.lookup, hka, hp, ih]

theorem mergeActions_lookup_stored (d e : List (String × Bool)) (k : String)
    (v : Bool) (h : e.lookup k = some v) :
    (mergeActions d e).lookup k = some v := by
  unfold mergeActions
  rw [lookup_append, lookup_mapDefaults]
  cases hdk : d.lookup k with
  | none => simp [lookup_filterKeep d e k hdk, h]
  | some dv => simp [h]

/-- The row that `getEventRouting` auto-creates when no mapping exists:
channel sentinel `'default'`, default actions, `explicitChannel = false`. -/
def autoCreatedRow (rid et : String) : RepositoryEventChannel where
  repositoryId := rid
  eventType := et
  channelId := "default"
  config := some
    { actionsEnabled := some (getDefaultActionsForEvent et)
      explicitChannel := some false }

/-- C5: on a store with no `RepositoryEventChannel` row for the given
repository and event type, the first resolver call appends exactly one new
row (channel sentinel `'default'`, `explicitChannel = false`, the static
default actions) and a second call with no intervening update creates
nothing further, returns an identical result (same effective channel, same
merged `actionsEnabled`), the effective channel being the fallback (or
`'pending'`); and in the merge, stored action values win over the static
defaults. -/
theorem getEventRouting_roundTrip
    (store : List RepositoryEventChannel) (rid et : String) (fb : Option String)
    (hnone : store.find? (eventChannelPred rid et) = none) :
    (getEventRouting store rid et fb).1 = store ++ [autoCreatedRow rid et] ∧
    (getEventRouting (getEventRouting store rid et fb).1 rid et fb).1
        = (getEventRouting store rid et fb).1 ∧
    (getEventRouting (getEventRouting store rid et fb).1 rid et fb).2
        = (getEventRouting store rid et fb).2 ∧
    (getEventRouting store rid et fb).2.channelId = orPending fb ∧
    (∀ d e : List (String × Bool), ∀ k : String, ∀ v : Bool,
      e.lookup k = some v → (mergeActions d e).lookup k = some v) := by
  set created : RepositoryEventChannel := autoCreatedRow rid et with hcreated
  have hpred : eventChannelPred rid et created = true := by
    simp [eventChannelPred, hcreated, autoCreatedRow]
  have hfind2 : (store ++ [created]).find? (eventChannelPred rid et) = some created := by
    rw [List.find?_append, hnone]
    simp [List.find?, hpred]
  have h1 : getEventRouting store rid et fb
      = (store ++ [created],
         { channelId := orPending fb,
           config := { actionsEnabled := some (mergeActions (getDefaultActionsForEvent et)
                          (getDefaultActionsForEvent et)),
                       explicitChannel := some false } }) := by
    simp [getEventRouting, hnone, hcreated, autoCreatedRow]
  have h2 : getEventRouting (store ++ [created]) rid et fb
      = (store ++ [created],
         { channelId := orPending fb,
           config := { actionsEnabled := some (mergeActions (getDefaultActionsForEvent et)
                          (getDefaultActionsForEvent et)),
                       explicitChannel := some false } }) := by
    simp [getEventRouting, List.find?_cons, eventChannelPred, hnone, hcreated,
      autoCreatedRow]
  refine ⟨by rw [h1], ?_, ?_, by rw [h1], mergeActions_lookup_stored⟩
  · rw [h1, h2]
  · rw [h1, h2]

/-- Witness for C5 at a concrete input: an empty store, repository `r1`,
event type `pull_request`, fallback channel `chan`. -/
theorem getEventRouting_roundTrip_witness :
    (getEventRouting [] "r1" "pull_request" (some "chan")).2.channelId
        = orPending (some "chan") ∧
    (getEventRouting [] "r1" "pull_request" (some "chan")).1
        = [autoCreatedRow "r1" "pull_request"] := by
  have h := getEventRouting_roundTrip [] "r1" "pull_request" (some "chan") (by rfl)
  exact ⟨h.2.2.2.1, by rw [h.1]; rfl⟩

end GitTrack

namespace GitTrack

/-! ## Resource Limit Guard (src/functions/limitChecker.js)

The configured maxima come from environment variables; `MAX_NOTIFICATION_CHANNELS_ALLOWED`
defaults to `Infinity`, modelled as `Option Nat` with `none` for unlimited.
`remaining` is `Option Nat` with `none` for `Infinity`; `potentialCount` is
`Option Nat` because the degenerate return paths omit the field. The Prisma
`server.findUnique(... include repositories.trackedBranches)` result is an
explicit tree of rows. -/

/-- A `Repository` row as loaded by the channel-limit query: its default
notification channel and its tracked branches. -/
structure RepoRow where
  notificationChannelId : Option String
  trackedBranches : List TrackedBranch
deriving DecidableEq

/-- A `Server` row with its included repositories. -/
structure ServerRow where
  repositories : List RepoRow
deriving DecidableEq

/-- The distinct channels explicitly used for branch tracking: every
`branch.channelId` that is truthy and not `===` the excluded channel,
deduplicated (the source collects them into a `Set` via the
`channelUsage` map's `isUsedExplicitly` entries). -/
def explicitBranchChannels (server : ServerRow)
    (excludeChannelId : Option String) : List String :=
  ((server.repositories.map (fun repo =>
      repo.trackedBranches.filterMap (fun branch =>
        match branch.channelId with
        | some c => if c != "" && !jsEqSO c excludeChannelId then some c else none
        | none => none))).flatten).dedup

/-- Result record of `checkChannelLimit`. -/
structure ChannelLimitResult where
  isAtLimit : Bool
  currentCount : Nat
  maxAllowed : Option Nat
  potentialCount : Option Nat
  remaining : Option Nat
deriving DecidableEq

/-- Embedding of `checkChannelLimit(prisma, serverId, excludeChannelId,
includeNewChannelId)` on the non-throwing path: unlimited maxima short-circuit
to not-at-limit; a missing server reports not-at-limit; otherwise the distinct
explicitly-used channels are counted, a truthy `includeNewChannelId` not
already in use raises the potential count by one, and the limit is breached
when the potential count strictly exceeds the maximum. -/
def checkChannelLimit (maxChannelsAllowed : Option Nat) (server : Option ServerRow)
    (excludeChannelId includeNewChannelId : Option String) : ChannelLimitResult :=
  match maxChannelsAllowed with
  | none =>
      { isAtLimit := false, currentCount := 0, maxAllowed := none,
        potentialCount := none, remaining := none }
  | some maxA =>
    match server with
    | none =>
        { isAtLimit := false, currentCount := 0, maxAllowed := some maxA,
          potentialCount := none, remaining := some maxA }
    | some srv =>
      let distinct := explicitBranchChannels srv excludeChannelId
      let currentCount := distinct.length
      let potentialChannelCount :=
        if truthyS includeNewChannelId then
          if distinct.contains (includeNewChannelId.getD "") then currentCount
          else currentCount + 1
        else currentCount
      { isAtLimit := decide (potentialChannelCount > maxA),
        currentCount := currentCount,
        maxAllowed := some maxA,
        potentialCount := some potentialChannelCount,
        remaining := some (maxA - currentCount) }

/-- Result record of `checkRepositoryLimit`. -/
structure RepositoryLimitResult where
  isAtLimit : Bool
  currentCount : Nat
  maxAllowed : Nat
  remaining : Nat
deriving DecidableEq

/-- Embedding of `checkRepositoryLimit(prisma, serverId)` on the non-throwing
path: `currentRepoCount` is the store's `repository.count` for the server and
the limit is reached already at equality (`currentRepoCount >= maxAllowed`);
`remaining` is clamped at zero. -/
def checkRepositoryLimit (maxReposAllowed currentRepoCount : Nat) :
    RepositoryLimitResult :=
  { isAtLimit := decide (currentRepoCount ≥ maxReposAllowed),
    currentCount := currentRepoCount,
    maxAllowed := maxReposAllowed,
    remaining := maxReposAllowed - currentRepoCount }

end GitTrack

namespace GitTrack

theorem contains_eq_decide_mem (l : List String) (a : String) :
    l.contains a = decide (a ∈ l) :=
  List.elem_eq_mem a l

/-- C7: with a configured maximum of 2 and a server whose tracked branches
explicitly use exactly the two distinct channels `c1` and `c2`, checking a
third unseen channel reports at-limit with potential count 3, while
re-checking a channel already counted reports not-at-limit (no double
counting); and whenever the configured maximum is unlimited,
`checkChannelLimit` reports not-at-limit with infinite remaining for every
server. -/
theorem checkChannelLimit_thirdChannel
    (srv : ServerRow) (c1 c2 c3 : String)
    (h12 : explicitBranchChannels srv none = [c1, c2])
    (hc3 : c3 ∉ [c1, c2]) (hc3t : c3 ≠ "") :
    (checkChannelLimit (some 2) (some srv) none (some c3)).isAtLimit = true ∧
    (checkChannelLimit (some 2) (some srv) none (some c3)).potentialCount = some 3 ∧
    (checkChannelLimit (some 2) (some srv) none (some c1)).isAtLimit = false ∧
    (∀ server : Option ServerRow, ∀ excl incl : Option String,
      checkChannelLimit none server excl incl
        = { isAtLimit := false, currentCount := 0, maxAllowed := none,
            potentialCount := none, remaining := none }) := by
  have hcontains3 : List.contains [c1, c2] c3 = false := by
    rw [contains_eq_decide_mem]
    simpa using hc3
  have htruthy3 : truthyS (some c3) = true := by
    simp [truthyS, hc3t]
  have hc3' : c3 ≠ c1 ∧ c3 ≠ c2 := by simpa using hc3
  refine ⟨?_, ?_, ?_, fun server excl incl => rfl⟩
  · simp [checkChannelLimit, h12, htruthy3, hcontains3, hc3'.1, hc3'.2]
  · simp [checkChannelLimit, h12, htruthy3, hcontains3, hc3'.1, hc3'.2]
  · by_cases hc1t : c1 = ""
    · simp [checkChannelLimit, h12, truthyS, hc1t]
    · have hcontains1 : List.contains [c1, c2] c1 = true := by
        rw [contains_eq_decide_mem]
        simp
      simp [checkChannelLimit, h12, truthyS, hc1t, hcontains1]

/-- Concrete demo data for witnesses: a server with one repository whose
tracked branches explicitly target the two channels `A` and `B`. -/
def demoServerAB : ServerRow :=
  { repositories :=
      [{ notificationChannelId := none,
         trackedBranches :=
           [{ branchName := "main".toList, channelId := some "A" },
            { branchName := "dev".toList, channelId := some "B" }] }] }

/-- Witness for C7 at a concrete server: one repository whose tracked
branches explicitly use channels `A` and `B`; the unseen channel is `C`. -/
theorem checkChannelLimit_thirdChannel_witness :
    (checkChannelLimit (some 2) (some demoServerAB) none (some "C")).isAtLimit
      = true := by
  have h := checkChannelLimit_thirdChannel demoServerAB
    "A" "B" "C" (by decide) (by decide) (by decide)
  exact h.1

/-- C10: the two limit guards use different thresholds. With no
`includeNewChannelId`, `checkChannelLimit` is at-limit only when the count of
explicitly used channels strictly exceeds the maximum (a server at exactly
the maximum is not at limit), whereas `checkRepositoryLimit` is at-limit
already at equality. -/
theorem limitGuard_threshold_difference
    (maxA : Nat) (srv : ServerRow) (excl : Option String) (repoCount : Nat) :
    (checkChannelLimit (some maxA) (some srv) excl none).isAtLimit
        = decide ((explicitBranchChannels srv excl).length > maxA) ∧
    ((explicitBranchChannels srv excl).length = maxA →
      (checkChannelLimit (some maxA) (some srv) excl none).isAtLimit = false) ∧
    (checkRepositoryLimit maxA repoCount).isAtLimit = decide (repoCount ≥ maxA) ∧
    (repoCount = maxA → (checkRepositoryLimit maxA repoCount).isAtLimit = true) := by
  have hch : (checkChannelLimit (some maxA) (some srv) excl none).isAtLimit
      = decide ((explicitBranchChannels srv excl).length > maxA) := by
    simp [checkChannelLimit, truthyS]
  refine ⟨hch, ?_, rfl, ?_⟩
  · intro heq
    rw [hch, heq]
    simp
  · intro heq
    simp [checkRepositoryLimit, heq]

/-- Witness for C10 at the boundary: two channels in explicit use and two
repositories, both maxima equal to 2 — the channel guard is not at limit,
the repository guard is. -/
theorem limitGuard_threshold_difference_witness :
    (checkChannelLimit (some 2) (some demoServerAB) none none).isAtLimit = false ∧
    (checkRepositoryLimit 2 2).isAtLimit = true := by
  have h := limitGuard_threshold_difference 2 demoServerAB none 2
  exact ⟨h.2.1 (by decide), h.2.2.2 rfl⟩

end GitTrack

namespace GitTrack

/-! ## Webhook Authenticator and Dispatcher (src/handlers/webhookHandler.js)

The POST /github-webhook route is a pure pipeline over the parsed request,
the repository table, the global fallback secret and the HMAC-SHA256 hex
digest function (cryptography is external, passed in as `hmacHex`:
`hmacHex secret body` is the hex digest). The `timingSafeEqual` comparison
with its length guard is equality of hex digest strings. -/

/-- A `Repository` row with its webhook secret and default channel. -/
structure Repository where
  id : String
  serverId : String
  url : String
  webhookSecret : Option String
  notificationChannelId : Option String
deriving DecidableEq

/-- The test `s.endsWith(suffix)` over the char-list representation of the
strings (the built-in `String` operation does not reduce definitionally). -/
def strEndsWith (s suffix : String) : Bool :=
  List.isSuffixOf suffix.toList s.toList

/-- The expression `s.slice(0, -n)`: drop the last `n` characters. -/
def strDropRight (s : String) (n : Nat) : String :=
  String.mk ((s.toList.reverse.drop n).reverse)

/-- The expression `s.substring(n)`: drop the first `n` characters. -/
def strDrop (s : String) (n : Nat) : String :=
  String.mk (s.toList.drop n)

/-- The test `s.startsWith(pre)`. -/
def strStartsWith (s pre : String) : Bool :=
  List.isPrefixOf pre.toList s.toList

/-- The test `hay.includes(needle)` on char lists: some tail of `hay` starts
with `needle`. -/
def strIncludes (needle : List Char) : List Char → Bool
  | [] => needle.isEmpty
  | c :: t => List.isPrefixOf needle (c :: t) || strIncludes needle t

/-- The URL variant set: the reported `html_url` plus the `.git`-stripped or
`.git`-appended variant. -/
def possibleUrls (repoUrl : String) : List String :=
  if strEndsWith repoUrl ".git" then [repoUrl, strDropRight repoUrl 4]
  else [repoUrl, repoUrl ++ ".git"]

/-- The query `repository.findMany({ where: { url: { in: possibleUrls } } })`
over the repository table, in table order. -/
def candidateRepositories (db : List Repository) (repoUrl : String) :
    List Repository :=
  db.filter (fun r => (possibleUrls repoUrl).contains r.url)

/-- The candidate loop: for each candidate in order, take its stored secret or
the global fallback (skip when neither is truthy), skip when the signature
header lacks the `sha256=` prefix, and accept the first candidate whose
expected digest over the raw body equals the provided one. -/
def validateCandidates : List Repository → String → String → Option String →
    (String → String → String) → Option Repository
  | [], _, _, _, _ => none
  | repoEntry :: rest, signature, rawBody, globalSecret, hmacHex =>
    let secretToUse := jsOrS repoEntry.webhookSecret globalSecret
    if !truthyS secretToUse then
      validateCandidates rest signature rawBody globalSecret hmacHex
    else if !strStartsWith signature "sha256=" then
      validateCandidates rest signature rawBody globalSecret hmacHex
    else
      let providedSignature := strDrop signature 7
      let expectedSignature := hmacHex (secretToUse.getD "") rawBody
      if providedSignature = expectedSignature then some repoEntry
      else validateCandidates rest signature rawBody globalSecret hmacHex

/-- The inbound request after the raw-body middleware: header values are
nullable strings, and `payloadRepoHtmlUrl` is `payload.repository.html_url`
when the parsed body has one (`none` when the payload or the field is
missing). -/
structure WebhookRequest where
  contentType : Option String
  payloadRepoHtmlUrl : Option String
  signature : Option String
  eventHeader : Option String
  rawBody : String
deriving DecidableEq

/-- Outcome of the route: either a terminal HTTP response (with a flag for
whether an unhandled-event system-log write was issued) or a dispatch to the
named event handler with the validated repository context. -/
inductive WebhookOutcome where
  | response (status : Nat) (systemLogged : Bool)
  | dispatched (event : String) (repo : Repository)
deriving DecidableEq

/-- The event types with a `switch` case in the dispatcher. -/
def handledEvents : List String :=
  ["push", "pull_request", "issues", "star", "release", "delete", "create",
   "fork", "issue_comment", "pull_request_review", "pull_request_review_comment",
   "milestone", "workflow_run", "ping"]

/-- The check `contentType && !contentType.includes('application/json')`. -/
def contentTypeBad (contentType : Option String) : Bool :=
  truthyS contentType &&
    !(strIncludes ("application/json".toList) ((contentType.getD "").toList))

/-- Embedding of the POST /github-webhook route up to dispatch: content-type
check, payload check, repository matching over URL variants, signature
presence, candidate validation, event-header presence, and the
unknown-event acknowledgement (HTTP 200 plus a system-log write). -/
def githubWebhookPost (req : WebhookRequest) (db : List Repository)
    (globalSecret : Option String) (hmacHex : String → String → String) :
    WebhookOutcome :=
  if contentTypeBad req.contentType then .response 400 false
  else if !truthyS req.payloadRepoHtmlUrl then .response 400 false
  else
    let repoUrl := req.payloadRepoHtmlUrl.getD ""
    let candidates := candidateRepositories db repoUrl
    if candidates.isEmpty then .response 404 false
    else if !truthyS req.signature then .response 401 false
    else
      match validateCandidates candidates (req.signature.getD "") req.rawBody
          globalSecret hmacHex with
      | none => .response 401 false
      | some repo =>
        if !truthyS req.eventHeader then .response 400 false
        else if handledEvents.contains (req.eventHeader.getD "") then
          .dispatched (req.eventHeader.getD "") repo
        else .response 200 true

end GitTrack

namespace GitTrack

/-- C2: the HTTP status of POST /github-webhook is decided by the first
failing stage, in order: 400 when a content-type header is present and not
JSON; 400 when the payload lacks a truthy `repository.html_url`; 404 when no
repository row matches either URL variant; 401 when no signature header is
present; 401 when no candidate validates the signature; 400 when no
event-type header is present; and when every stage passes but the event type
has no handler, 200 with a system-log write (never 400 or 500). -/
theorem githubWebhookPost_stages
    (req : WebhookRequest) (db : List Repository) (globalSecret : Option String)
    (hmacHex : String → String → String) :
    (contentTypeBad req.contentType = true →
      githubWebhookPost req db globalSecret hmacHex = .response 400 false) ∧
    (contentTypeBad req.contentType = false →
      truthyS req.payloadRepoHtmlUrl = false →
      githubWebhookPost req db globalSecret hmacHex = .response 400 false) ∧
    (contentTypeBad req.contentType = false →
      truthyS req.payloadRepoHtmlUrl = true →
      candidateRepositories db (req.payloadRepoHtmlUrl.getD "") = [] →
      githubWebhookPost req db globalSecret hmacHex = .response 404 false) ∧
    (contentTypeBad req.contentType = false →
      truthyS req.payloadRepoHtmlUrl = true →
      candidateRepositories db (req.payloadRepoHtmlUrl.getD "") ≠ [] →
      truthyS req.signature = false →
      githubWebhookPost req db globalSecret hmacHex = .response 401 false) ∧
    (contentTypeBad req.contentType = false →
      truthyS req.payloadRepoHtmlUrl = true →
      candidateRepositories db (req.payloadRepoHtmlUrl.getD "") ≠ [] →
      truthyS req.signature = true →
      validateCandidates (candidateRepositories db (req.payloadRepoHtmlUrl.getD ""))
          (req.signature.getD "") req.rawBody globalSecret hmacHex = none →
      githubWebhookPost req db globalSecret hmacHex = .response 401 false) ∧
    (∀ repo : Repository,
      contentTypeBad req.contentType = false →
      truthyS req.payloadRepoHtmlUrl = true →
      candidateRepositories db (req.payloadRepoHtmlUrl.getD "") ≠ [] →
      truthyS req.signature = true →
      validateCandidates (candidateRepositories db (req.payloadRepoHtmlUrl.getD ""))
          (req.signature.getD "") req.rawBody globalSecret hmacHex = some repo →
      truthyS req.eventHeader = false →
      githubWebhookPost req db globalSecret hmacHex = .response 400 false) ∧
    (∀ repo : Repository,
      contentTypeBad req.contentType = false →
      truthyS req.payloadRepoHtmlUrl = true →
      candidateRepositories db (req.payloadRepoHtmlUrl.getD "") ≠ [] →
      truthyS req.signature = true →
      validateCandidates (candidateRepositories db (req.payloadRepoHtmlUrl.getD ""))
          (req.signature.getD "") req.rawBody globalSecret hmacHex = some repo →
      truthyS req.eventHeader = true →
      handledEvents.contains (req.eventHeader.getD "") = false →
      githubWebhookPost req db globalSecret hmacHex = .response 200 true) := by
  refine ⟨?_, ?_, ?_, ?_, ?_, ?_, ?_⟩
  · intro h1
    simp [githubWebhookPost, h1]
  · intro h1 h2
    simp [githubWebhookPost, h1, h2]
  · intro h1 h2 h3
    simp [githubWebhookPost, h1, h2, List.isEmpty_iff, h3]
  · intro h1 h2 h3 h4
    simp [githubWebhookPost, h1, h2, List.isEmpty_iff, h3, h4]
  · intro h1 h2 h3 h4 h5
    simp [githubWebhookPost, h1, h2, List.isEmpty_iff, h3, h4, h5]
  · intro repo h1 h2 h3 h4 h5 h6
    simp [githubWebhookPost, h1, h2, List.isEmpty_iff, h3, h4, h5, h6]
  · intro repo h1 h2 h3 h4 h5 h6 h7
    have h7m : req.eventHeader.getD "" ∉ handledEvents := by simpa using h7
    simp [githubWebhookPost, h1, h2, List.isEmpty_iff, h3, h4, h5, h6, h7m]

/-- A concrete stand-in for the external HMAC-SHA256 hex digest used by
witnesses: any deterministic function of secret and body exercises the
pipeline. -/
def demoHmac : String → String → String := fun secret body => secret ++ body

/-- A configured repository row used by witnesses. -/
def demoRepoRow : Repository :=
  { id := "1", serverId := "s1", url := "https://github.com/o/r",
    webhookSecret := some "sec", notificationChannelId := some "chan" }

/-- A fully valid request whose event type has no handler. -/
def demoUnknownEventReq : WebhookRequest :=
  { contentType := some "application/json",
    payloadRepoHtmlUrl := some "https://github.com/o/r",
    signature := some "sha256=secbody",
    eventHeader := some "deployment_status",
    rawBody := "body" }

/-- Witness for C2: a signed request for a configured repository carrying the
unhandled event type `deployment_status` is answered 200 with a system-log
write. -/
theorem githubWebhookPost_stages_witness :
    githubWebhookPost demoUnknownEventReq [demoRepoRow] none demoHmac
      = .response 200 true := by
  have h := githubWebhookPost_stages demoUnknownEventReq [demoRepoRow] none demoHmac
  exact h.2.2.2.2.2.2 demoRepoRow (by decide) (by decide) (by decide) (by decide)
    (by decide) (by decide) (by decide)

end GitTrack

namespace GitTrack

/-! ## Response guard (handleEventWithLogging, src/handlers/webhookHandler.js)

The Express response object is a state: the `responseSent` flag of the
`sendResponse` closure plus the list of responses actually emitted on the
wire. A dispatched handler either returns a value (possibly not the expected
record shape, hence `Option HandlerResult`) or throws (the `Except.error`
case carrying the error message). -/

/-- The record event handlers return: `statusCode`, `message`, plus the
delivery information. JavaScript truthiness applies to the first two
(`result.statusCode && result.message`): 0 and the empty string are falsy. -/
structure HandlerResult where
  statusCode : Nat
  message : String
  channelId : Option String
  messageId : Option String
deriving DecidableEq

/-- The HTTP response state of one request: the guard flag and the responses
emitted so far. -/
structure ResponseState where
  responseSent : Bool
  emitted : List (Nat × String)
deriving DecidableEq

/-- Embedding of the `sendResponse` closure: when a response was already
sent, warn and do nothing; otherwise set the flag and emit exactly one
response. -/
def sendResponse (st : ResponseState) (statusCode : Nat) (message : String) :
    ResponseState :=
  if st.responseSent then st
  else { responseSent := true, emitted := st.emitted ++ [(statusCode, message)] }

/-- Embedding of `handleEventWithLogging`: run the handler; on normal return
answer with the handler's status and message when both are truthy (else the
200 default), on a thrown error answer 500 — in both cases through the
`sendResponse` guard. Error-log writes do not affect the response state. -/
def handleEventWithLogging (outcome : Except String (Option HandlerResult))
    (st : ResponseState) : ResponseState :=
  match outcome with
  | .ok result =>
    let response :=
      match result with
      | some r =>
        if r.statusCode != 0 && r.message != "" then (r.statusCode, r.message)
        else (200, "Event processed successfully")
      | none => (200, "Event processed successfully")
    sendResponse st response.1 response.2
  | .error _ => sendResponse st 500 "Webhook processing failed"

/-- C1: for every dispatched request, whether the handler returns normally
(any result shape) or throws, exactly one HTTP response is emitted from the
fresh per-request state; and the guard makes any further attempt to respond
on an already-responded state a no-op. -/
theorem handleEventWithLogging_exactlyOneResponse :
    (∀ outcome : Except String (Option HandlerResult),
      (handleEventWithLogging outcome
          { responseSent := false, emitted := [] }).emitted.length = 1 ∧
      (handleEventWithLogging outcome
          { responseSent := false, emitted := [] }).responseSent = true) ∧
    (∀ st : ResponseState, ∀ statusCode : Nat, ∀ message : String,
      st.responseSent = true → sendResponse st statusCode message = st) := by
  constructor
  · intro outcome
    match outcome with
    | .ok none => constructor <;> rfl
    | .ok (some r) =>
      constructor <;>
        · simp only [handleEventWithLogging, sendResponse]
          cases hr : (r.statusCode != 0 && r.message != "") <;> simp
    | .error e => constructor <;> rfl
  · intro st statusCode message h
    simp [sendResponse, h]

/-- Witness for C1 at concrete inputs: a throwing handler yields exactly one
emitted response, and a second send on the responded state changes
nothing. -/
theorem handleEventWithLogging_exactlyOneResponse_witness :
    (handleEventWithLogging (Except.error "boom")
        { responseSent := false, emitted := [] }).emitted.length = 1 ∧
    sendResponse { responseSent := true, emitted := [(500, "failed")] } 200 "ok"
      = { responseSent := true, emitted := [(500, "failed")] } := by
  constructor
  · exact (handleEventWithLogging_exactlyOneResponse.1 (Except.error "boom")).1
  · exact handleEventWithLogging_exactlyOneResponse.2
      { responseSent := true, emitted := [(500, "failed")] } 200 "ok" rfl

end GitTrack

namespace GitTrack

/-! ## Delivery environment and the advisory limit warning
(checkChannelLimitAndWarn, src/handlers/webhookHandler.js)

The Discord client is external: `channelOk c` is true when
`botClient.channels.fetch(c)` resolves to a text-based channel (false when
fetch throws, returns null, or the channel is not text-based), and
`sendOk c` is true when `channel.send` into `c` resolves (false when it
throws). -/

/-- External Discord-client behavior during one delivery. -/
structure DeliveryEnv where
  channelOk : String → Bool
  sendOk : String → Bool

/-- Result of `checkChannelLimitAndWarn`: whether delivery may proceed and
whether the warning embed was emitted into the target channel. -/
structure WarnResult where
  allowed : Bool
  warningSent : Bool
deriving DecidableEq

/-- Embedding of `checkChannelLimitAndWarn(prisma, botClient, repoContext,
channelId)` on the non-throwing-store path: consult `checkChannelLimit` with
no exclusions and no new channel; below the limit allow delivery silently;
at the limit try to send a warning into the target channel and allow
delivery only when that warning went through — a failed fetch, a
non-text-based channel or a throwing send all fall through to the blocking
`return false`. -/
def checkChannelLimitAndWarn (maxChannelsAllowed : Option Nat)
    (server : Option ServerRow) (env : DeliveryEnv) (channelId : String) :
    WarnResult :=
  let limit := checkChannelLimit maxChannelsAllowed server none none
  if limit.isAtLimit then
    if env.channelOk channelId then
      if env.sendOk channelId then { allowed := true, warningSent := true }
      else { allowed := false, warningSent := false }
    else { allowed := false, warningSent := false }
  else { allowed := true, warningSent := false }

/-- An environment in which every fetch and send succeeds. -/
def allOkEnv : DeliveryEnv :=
  { channelOk := fun _ => true, sendOk := fun _ => true }

/-- An environment in which every channel fetch fails. -/
def fetchFailEnv : DeliveryEnv :=
  { channelOk := fun _ => false, sendOk := fun _ => false }

/-- A server whose tracked branches explicitly use the three distinct
channels `A`, `B` and `C` — strictly beyond a maximum of 2. -/
def demoServerABC : ServerRow :=
  { repositories :=
      [{ notificationChannelId := none,
         trackedBranches :=
           [{ branchName := "main".toList, channelId := some "A" },
            { branchName := "dev".toList, channelId := some "B" },
            { branchName := "staging".toList, channelId := some "C" }] }] }

/-- Counterexample to C8: with the server strictly beyond the channel limit
(three explicit channels, maximum 2) and the target channel unfetchable, the
advisory check sends no warning and returns `allowed = false`, so the caller
skips the notification — the breach does block the send. -/
theorem channelLimitWarn_blocks_counterexample :
    (checkChannelLimit (some 2) (some demoServerABC) none none).isAtLimit = true ∧
    checkChannelLimitAndWarn (some 2) (some demoServerABC) fetchFailEnv "A"
      = { allowed := false, warningSent := false } := by
  constructor
  · rfl
  · rfl

/-- C8 as amended: below-or-at the limit, delivery is allowed with no
warning; strictly beyond the limit, when the warning embed can be delivered
into the target channel the send is still attempted (allowed with warning),
but when the warning cannot be delivered (fetch failure, non-text channel,
or a throwing send) the delivery is blocked. -/
theorem channelLimitWarn_behavior (maxChannelsAllowed : Option Nat)
    (server : Option ServerRow) (env : DeliveryEnv) (channelId : String) :
    ((checkChannelLimit maxChannelsAllowed server none none).isAtLimit = false →
      checkChannelLimitAndWarn maxChannelsAllowed server env channelId
        = { allowed := true, warningSent := false }) ∧
    ((checkChannelLimit maxChannelsAllowed server none none).isAtLimit = true →
      env.channelOk channelId = true → env.sendOk channelId = true →
      checkChannelLimitAndWarn maxChannelsAllowed server env channelId
        = { allowed := true, warningSent := true }) ∧
    ((checkChannelLimit maxChannelsAllowed server none none).isAtLimit = true →
      env.channelOk channelId = false ∨ env.sendOk channelId = false →
      checkChannelLimitAndWarn maxChannelsAllowed server env channelId
        = { allowed := false, warningSent := false }) := by
  refine ⟨?_, ?_, ?_⟩
  · intro h
    simp [checkChannelLimitAndWarn, h]
  · intro h hc hs
    simp [checkChannelLimitAndWarn, h, hc, hs]
  · intro h hcs
    rcases hcs with hc | hs
    · simp [checkChannelLimitAndWarn, h, hc]
    · cases hc : env.channelOk channelId <;>
        simp [checkChannelLimitAndWarn, h, hc, hs]

/-- Witness for C8 (amended): strictly beyond the limit with a working
channel, the warning goes out and delivery is still allowed. -/
theorem channelLimitWarn_behavior_witness :
    checkChannelLimitAndWarn (some 2) (some demoServerABC) allOkEnv "A"
      = { allowed := true, warningSent := true } :=
  (channelLimitWarn_behavior (some 2) (some demoServerABC) allOkEnv "A").2.1
    (by rfl) (by rfl) (by rfl)

end GitTrack

namespace GitTrack

/-! ## Comment-type event handlers (handleIssueCommentEvent in
src/handlers/webhookHandler.js; handlePRReviewEvent and
handlePRReviewCommentEvent in src/handlers/pullRequestHandlers.js)

Each handler is modelled as its delivery decision: the payload fields it
branches on, the stored routing rows, the limit configuration and the
Discord-client environment determine whether a notification is delivered
and with which acknowledgement. -/

/-- Outcome of one comment-type handler invocation: whether the notification
was delivered, the HTTP status returned to the dispatcher, and the reported
channel. -/
structure HandlerOutcome where
  delivered : Bool
  statusCode : Nat
  channelId : Option String
deriving DecidableEq

/-- Embedding of `getPullRequestRouting(prisma, repoContext,
fallbackChannelId)` (non-throwing store): the raw first `pull_request`
mapping with no defaults merge — `mapping?.channelId || fallback ||
'pending'` and `mapping?.config || null`. -/
def getPullRequestRouting (store : List RepositoryEventChannel)
    (repositoryId : String) (fallbackChannelId : Option String) :
    String × Option EventChannelConfig :=
  match store.find? (eventChannelPred repositoryId "pull_request") with
  | some mapping => (strFallback mapping.channelId fallbackChannelId, mapping.config)
  | none => (orPending fallbackChannelId, none)

/-- The gate `!config || !config.actionsEnabled || !config.actionsEnabled['comments']`
negated: comments pass only when the config and its `actionsEnabled` object
exist and the `comments` entry is truthy. -/
def commentsEnabled (config : Option EventChannelConfig) : Bool :=
  match config with
  | some cfg =>
    match cfg.actionsEnabled with
    | some actions => (actions.lookup "comments").getD false
    | none => false
  | none => false

/-- Embedding of `handleIssueCommentEvent`: only the `created` action
delivers; the channel is the repository's default (else `'pending'`, which
skips); the advisory limit check can block; then fetch and send. No stored
event configuration is consulted. -/
def handleIssueCommentEvent (action : String)
    (repoNotificationChannelId : Option String) (maxChannelsAllowed : Option Nat)
    (server : Option ServerRow) (env : DeliveryEnv) : HandlerOutcome :=
  if action != "created" then
    { delivered := false, statusCode := 200, channelId := none }
  else
    let channelId := orPending repoNotificationChannelId
    if channelId == "pending" then
      { delivered := false, statusCode := 200, channelId := none }
    else if !(checkChannelLimitAndWarn maxChannelsAllowed server env channelId).allowed then
      { delivered := false, statusCode := 200, channelId := none }
    else if env.channelOk channelId then
      if env.sendOk channelId then
        { delivered := true, statusCode := 200, channelId := some channelId }
      else
        { delivered := false, statusCode := 200, channelId := none }
    else
      { delivered := false, statusCode := 200, channelId := none }

/-- Embedding of `handlePRReviewEvent`: only `submitted` delivers; routing
comes from the raw `pull_request` mapping; the comments gate applies only to
`commented`-state reviews; no limit check is performed. -/
def handlePRReviewEvent (action reviewState : String)
    (store : List RepositoryEventChannel) (repositoryId : String)
    (repoNotificationChannelId : Option String) (env : DeliveryEnv) :
    HandlerOutcome :=
  if action != "submitted" then
    { delivered := false, statusCode := 200, channelId := none }
  else
    let routed := getPullRequestRouting store repositoryId repoNotificationChannelId
    if reviewState == "commented" && !commentsEnabled routed.2 then
      { delivered := false, statusCode := 200, channelId := none }
    else if routed.1 == "pending" then
      { delivered := false, statusCode := 200, channelId := none }
    else if env.channelOk routed.1 then
      if env.sendOk routed.1 then
        { delivered := true, statusCode := 200, channelId := some routed.1 }
      else
        { delivered := false, statusCode := 200, channelId := none }
    else
      { delivered := false, statusCode := 200, channelId := none }

/-- Embedding of `handlePRReviewCommentEvent`: only `created` delivers; the
comments gate applies unconditionally; routing as for reviews; no limit
check. -/
def handlePRReviewCommentEvent (action : String)
    (store : List RepositoryEventChannel) (repositoryId : String)
    (repoNotificationChannelId : Option String) (env : DeliveryEnv) :
    HandlerOutcome :=
  if action != "created" then
    { delivered := false, statusCode := 200, channelId := none }
  else
    let routed := getPullRequestRouting store repositoryId repoNotificationChannelId
    if !commentsEnabled routed.2 then
      { delivered := false, statusCode := 200, channelId := none }
    else if routed.1 == "pending" then
      { delivered := false, statusCode := 200, channelId := none }
    else if env.channelOk routed.1 then
      if env.sendOk routed.1 then
        { delivered := true, statusCode := 200, channelId := some routed.1 }
      else
        { delivered := false, statusCode := 200, channelId := none }
    else
      { delivered := false, statusCode := 200, channelId := none }

end GitTrack

namespace GitTrack

/-- Counterexample to C6 as stated: with no stored configuration (so the
routed configuration's `comments` flag is `false` — both the auto-provisioned
`issues` defaults and the raw `pull_request` mapping say so), an
`issue_comment { action: 'created' }` is still delivered (the handler never
consults any configuration), and a `pull_request_review` submission in state
`approved` is also delivered despite the disabled comments flag. -/
theorem commentGate_counterexample :
    (handleIssueCommentEvent "created" (some "chan") (some 5)
        (some demoServerAB) allOkEnv).delivered = true ∧
    ((getEventRouting [] "r1" "issues" (some "chan")).2.config.actionsEnabled.getD
        []).lookup "comments" = some false ∧
    (handlePRReviewEvent "submitted" "approved" [] "r1" (some "chan")
        allOkEnv).delivered = true ∧
    commentsEnabled (getPullRequestRouting [] "r1" (some "chan")).2 = false := by
  refine ⟨by rfl, by rfl, by rfl, by rfl⟩

/-- C6 as amended: non-`created`/non-`submitted` actions are acknowledged
with 200 and no delivery for all three handlers. The opt-in comments gate is
enforced by `handlePRReviewCommentEvent` always and by `handlePRReviewEvent`
only for `commented`-state reviews; `handleIssueCommentEvent` consults no
configuration at all — a created comment is delivered whenever a channel is
configured, the advisory limit check allows it, and the channel accepts the
send; a non-`commented` review is delivered regardless of the comments flag;
and a review comment with the flag enabled is delivered whenever the routed
channel accepts it. -/
theorem commentDelivery_gating
    (store : List RepositoryEventChannel) (rid : String)
    (repoNotif : Option String) (maxA : Option Nat) (server : Option ServerRow)
    (env : DeliveryEnv) (action reviewState : String) :
    (action ≠ "created" →
      handleIssueCommentEvent action repoNotif maxA server env
        = { delivered := false, statusCode := 200, channelId := none }) ∧
    (action ≠ "submitted" →
      handlePRReviewEvent action reviewState store rid repoNotif env
        = { delivered := false, statusCode := 200, channelId := none }) ∧
    (action ≠ "created" →
      handlePRReviewCommentEvent action store rid repoNotif env
        = { delivered := false, statusCode := 200, channelId := none }) ∧
    (commentsEnabled (getPullRequestRouting store rid repoNotif).2 = false →
      (handlePRReviewCommentEvent "created" store rid repoNotif env).delivered
        = false) ∧
    (commentsEnabled (getPullRequestRouting store rid repoNotif).2 = false →
      (handlePRReviewEvent "submitted" "commented" store rid repoNotif
          env).delivered = false) ∧
    ((handleIssueCommentEvent "created" repoNotif maxA server env).delivered = true ↔
      (orPending repoNotif ≠ "pending" ∧
        (checkChannelLimitAndWarn maxA server env (orPending repoNotif)).allowed
          = true ∧
        env.channelOk (orPending repoNotif) = true ∧
        env.sendOk (orPending repoNotif) = true)) ∧
    (reviewState ≠ "commented" →
      ((handlePRReviewEvent "submitted" reviewState store rid repoNotif
          env).delivered = true ↔
        ((getPullRequestRouting store rid repoNotif).1 ≠ "pending" ∧
          env.channelOk (getPullRequestRouting store rid repoNotif).1 = true ∧
          env.sendOk (getPullRequestRouting store rid repoNotif).1 = true))) ∧
    (commentsEnabled (getPullRequestRouting store rid repoNotif).2 = true →
      ((handlePRReviewCommentEvent "created" store rid repoNotif env).delivered
          = true ↔
        ((getPullRequestRouting store rid repoNotif).1 ≠ "pending" ∧
          env.channelOk (getPullRequestRouting store rid repoNotif).1 = true ∧
          env.sendOk (getPullRequestRouting store rid repoNotif).1 = true))) := by
  refine ⟨?_, ?_, ?_, ?_, ?_, ?_, ?_, ?_⟩
  · intro h
    simp [handleIssueCommentEvent, h]
  · intro h
    simp [handlePRReviewEvent, h]
  · intro h
    simp [handlePRReviewCommentEvent, h]
  · intro h
    simp only [handlePRReviewCommentEvent]
    split_ifs <;> simp_all
  · intro h
    simp only [handlePRReviewEvent]
    split_ifs <;> simp_all
  · simp only [handleIssueCommentEvent]
    split_ifs <;> simp_all
  · intro h
    simp only [handlePRReviewEvent]
    split_ifs <;> simp_all
  · intro h
    simp only [handlePRReviewCommentEvent]
    split_ifs <;> simp_all

/-- A stored `pull_request` mapping that explicitly enables comment
notifications and routes them to `prchan`. -/
def demoStorePRComments : List RepositoryEventChannel :=
  [{ repositoryId := "r1", eventType := "pull_request", channelId := "prchan",
     config := some { actionsEnabled := some [("comments", true)],
                      explicitChannel := some true } }]

/-- Witness for C6 (amended) at concrete inputs: a non-created comment is
acknowledged without delivery; with comments explicitly enabled a created
review comment is delivered to the routed channel. -/
theorem commentDelivery_gating_witness :
    handleIssueCommentEvent "edited" (some "chan") (some 5) (some demoServerAB)
        allOkEnv
      = { delivered := false, statusCode := 200, channelId := none } ∧
    (handlePRReviewCommentEvent "created" demoStorePRComments "r1" (some "chan")
        allOkEnv).delivered = true := by
  have h := commentDelivery_gating demoStorePRComments "r1" (some "chan") (some 5)
    (some demoServerAB) allOkEnv "edited" "approved"
  refine ⟨h.1 (by decide), ?_⟩
  exact (h.2.2.2.2.2.2.2 (by rfl)).mpr ⟨by decide, by rfl, by rfl⟩

end GitTrack

namespace GitTrack

/-! ## Message counting (handlePushEvent and handlePingEvent,
src/handlers/webhookHandler.js)

Each handler is modelled as the pair (number of successfully delivered
notification messages, total amount added to the server's `messagesSent`
counter by the increment operations it issues). Warning embeds from the
advisory limit check are not notifications and never increment the
counter. -/

/-- The branch extraction `ref.startsWith('refs/heads/') ? ref.substring(11)
: null`. -/
def extractBranchName (branchRef : String) : Option String :=
  if strStartsWith branchRef "refs/heads/" then some (strDrop branchRef 11)
  else none

/-- The per-matching-branch delivery loop of `handlePushEvent`: resolve the
channel (`tbConfig.channelId || repoContext.notificationChannelId ||
'pending'`, a `'pending'` resolution skips), consult the advisory limit
check, fetch the channel and send; each successful send is followed by one
`messagesSent` increment of 1; a throwing send is caught per-channel and
does not increment. Returns (successful sends, total increments issued). -/
def pushDeliveries : List TrackedBranch → Option String → Option Nat →
    Option ServerRow → DeliveryEnv → Nat × Nat
  | [], _, _, _, _ => (0, 0)
  | tbConfig :: rest, repoNotif, maxA, server, env =>
    let tail := pushDeliveries rest repoNotif maxA server env
    let channelId := orPending (jsOrS tbConfig.channelId repoNotif)
    if channelId == "pending" then tail
    else if !(checkChannelLimitAndWarn maxA server env channelId).allowed then tail
    else if env.channelOk channelId then
      if env.sendOk channelId then (tail.1 + 1, tail.2 + 1)
      else tail
    else tail

/-- Embedding of `handlePushEvent` as its delivery/increment counts: a
non-branch ref acknowledges without delivery; otherwise the tracked branches
matching the pushed branch fan out through `pushDeliveries`. -/
def handlePushEventCounts (branchRef : String)
    (allTrackedBranches : List TrackedBranch) (repoNotif : Option String)
    (maxA : Option Nat) (server : Option ServerRow) (env : DeliveryEnv) :
    Nat × Nat :=
  let branchName := extractBranchName branchRef
  if !truthyS branchName then (0, 0)
  else
    pushDeliveries
      (findMatchingBranches allTrackedBranches ((branchName.getD "").toList))
      repoNotif maxA server env

/-- Embedding of `handlePingEvent` as its delivery/increment counts: a
pending channel skips; the advisory limit check runs but its result is
deliberately ignored; the confirmation embed is sent (`env.sendOk`), then
the instructions embed (`secondSendOk`), and only after both does a single
increment of 2 run; a throw at either send is caught by the outer handler
`catch` and skips everything after it. -/
def handlePingEventCounts (repoNotif : Option String) (_maxA : Option Nat)
    (_server : Option ServerRow) (env : DeliveryEnv) (secondSendOk : Bool) :
    Nat × Nat :=
  let channelId := orPending repoNotif
  if channelId == "pending" then (0, 0)
  else if env.channelOk channelId then
    if env.sendOk channelId then
      if secondSendOk then (2, 2) else (1, 0)
    else (0, 0)
  else (0, 0)

/-- Counterexample to C9 as stated: when the ping confirmation embed is
delivered but the follow-up instructions embed throws, one chat message was
successfully delivered yet `messagesSent` is incremented by zero — the
increment-by-2 runs only after both sends. -/
theorem messagesSent_ping_partial_counterexample :
    handlePingEventCounts (some "chan") (some 5) (some demoServerAB) allOkEnv
        false
      = (1, 0) := by
  rfl

theorem pushDeliveries_balance (l : List TrackedBranch) (repoNotif : Option String)
    (maxA : Option Nat) (server : Option ServerRow) (env : DeliveryEnv) :
    (pushDeliveries l repoNotif maxA server env).2
      = (pushDeliveries l repoNotif maxA server env).1 := by
  induction l with
  | nil => rfl
  | cons tb rest ih =>
    simp only [pushDeliveries]
    split_ifs <;> simp [ih]

/-- C9 as amended: the push handler issues exactly one `messagesSent`
increment per successfully delivered notification and none for skipped,
filtered or failed deliveries (its total increments always equal its
successful sends); the ping handler increments by exactly 2 when both of
its messages deliver and by 0 otherwise — in particular a ping whose second
send fails under-counts the one delivered message. -/
theorem messagesSent_per_delivery (branchRef : String)
    (tracked : List TrackedBranch) (repoNotif : Option String)
    (maxA : Option Nat) (server : Option ServerRow) (env : DeliveryEnv)
    (secondSendOk : Bool) :
    (handlePushEventCounts branchRef tracked repoNotif maxA server env).2
      = (handlePushEventCounts branchRef tracked repoNotif maxA server env).1 ∧
    (handlePingEventCounts repoNotif maxA server env secondSendOk).2
      = (if (handlePingEventCounts repoNotif maxA server env secondSendOk).1 = 2
         then 2 else 0) := by
  constructor
  · simp only [handlePushEventCounts]
    split_ifs
    · rfl
    · exact pushDeliveries_balance _ _ _ _ _
  · simp only [handlePingEventCounts]
    split_ifs <;> simp_all

end GitTrack
